import Mathlib

/-!
Verification of the statute_to_json core (structural parser and
cross-reference resolver) against its natural-language specification.

The Python sources `statute_to_json/tools/parse_statute.py` (text mode) and
`statute_to_json/tools/resolve_links.py` are shallowly embedded below.
Text is modelled as `List Char`; Python `re` patterns are translated into
deterministic character-list matchers (every pattern used by the code is
backtracking-free over its input, as each repetition is bounded by a
delimiter outside its character class, so greedy scanning is equivalent).
Python `str`/character predicates are modelled over their ASCII behaviour,
which is the range exercised by the code's own regular expressions.
-/

namespace StatuteToJson

set_option maxRecDepth 16384

abbrev Str := List Char

/-- Python `[a-z]`. -/
def isLowerAlpha (c : Char) : Bool := 97 ≤ c.toNat && c.toNat ≤ 122

/-- Python `[A-Z]`. -/
def isUpperAlpha (c : Char) : Bool := 65 ≤ c.toNat && c.toNat ≤ 90

/-- Python `[0-9]`. -/
def isDigitCh (c : Char) : Bool := 48 ≤ c.toNat && c.toNat ≤ 57

/-- Python `[ivxlcdm]`, the lowercase roman-numeral alphabet of the label grammar. -/
def isRomanLower (c : Char) : Bool :=
  c == 'i' || c == 'v' || c == 'x' || c == 'l' || c == 'c' || c == 'd' || c == 'm'

/-- Python `[IVXLCDM]`. -/
def isRomanUpper (c : Char) : Bool :=
  c == 'I' || c == 'V' || c == 'X' || c == 'L' || c == 'C' || c == 'D' || c == 'M'

/-- Python `\s` (ASCII range): space, tab, newline, carriage return, vertical tab, form feed. -/
def isPySpace (c : Char) : Bool :=
  c.toNat == 32 || c.toNat == 9 || c.toNat == 10 || c.toNat == 13 || c.toNat == 11 || c.toNat == 12

/-- Python `\w` (ASCII range): letters, digits, underscore. -/
def isWordChar (c : Char) : Bool := isLowerAlpha c || isUpperAlpha c || isDigitCh c || c == '_'

/-- Character class `[0-9A-Za-z\.\-]` of the section token in `ABS_REF` and `HEADER_USC`. -/
def isSecChar (c : Char) : Bool := isDigitCh c || isLowerAlpha c || isUpperAlpha c || c == '.' || c == '-'

/-- Class `[0-9\-]` of the part after the dot in a CFR section number. -/
def isDigitDash (c : Char) : Bool := isDigitCh c || c == '-'

/-- ASCII lowercasing, the behaviour of Python `str.lower` on the ASCII inputs used here. -/
def toLowerCh (c : Char) : Char := if isUpperAlpha c then Char.ofNat (c.toNat + 32) else c

/-- ASCII uppercasing, the behaviour of Python `str.upper` on the ASCII inputs used here. -/
def toUpperCh (c : Char) : Char := if isLowerAlpha c then Char.ofNat (c.toNat - 32) else c

def lowerStr (s : Str) : Str := s.map toLowerCh

def upperStr (s : Str) : Str := s.map toUpperCh

/-- Python `str.strip()`: drop whitespace from both ends. -/
def stripStr (s : Str) : Str :=
  ((s.dropWhile isPySpace).reverse.dropWhile isPySpace).reverse

/-- Python `str.strip("()")`: drop parenthesis characters from both ends. -/
def isParenCh (c : Char) : Bool := c == '(' || c == ')'

def stripParens (s : Str) : Str :=
  ((s.dropWhile isParenCh).reverse.dropWhile isParenCh).reverse

/-- Decimal rendering of a natural number, the behaviour of Python `str(int)`; the
fuel argument of the helper only bounds the digit count and never runs out. -/
def natToStrFuel : Nat → Nat → Str
  | 0, _ => []
  | fuel + 1, n =>
    if n < 10 then [Char.ofNat (48 + n)]
    else natToStrFuel fuel (n / 10) ++ [Char.ofNat (48 + n % 10)]

def natToStr (n : Nat) : Str := natToStrFuel (n + 1) n

/-- Numeric value of a digit string, the behaviour of Python `int` on a `\d+` match. -/
def natOfDigits (s : Str) : Nat := s.foldl (fun acc c => 10 * acc + (c.toNat - 48)) 0

/-- Case-insensitive prefix test: the pattern (given lowercase) matches the text prefix
under Python `re.IGNORECASE`. -/
def startsWithCI : Str → Str → Bool
  | [], _ => true
  | _ :: _, [] => false
  | p :: ps, c :: cs => (toLowerCh c == p) && startsWithCI ps cs

/-- Exact prefix test. -/
def startsWithStr : Str → Str → Bool
  | [], _ => true
  | _ :: _, [] => false
  | p :: ps, c :: cs => (c == p) && startsWithStr ps cs

/-- Substring containment (case-sensitive), used to state properties of rewritten text. -/
def containsSub (pat : Str) : Str → Bool
  | [] => startsWithStr pat []
  | cs@(_ :: rest) => startsWithStr pat cs || containsSub pat rest

/-- Case-insensitive substring search, the behaviour of `re.search` on a literal pattern
with `re.IGNORECASE`. -/
def containsCI (pat : Str) : Str → Bool
  | [] => startsWithCI pat []
  | cs@(_ :: rest) => startsWithCI pat cs || containsCI pat rest

/-- Python `"\n".split` semantics: split on every newline, keeping empty segments. -/
def splitLines : Str → List Str
  | [] => [[]]
  | '\n' :: rest => [] :: splitLines rest
  | c :: rest =>
    match splitLines rest with
    | l :: ls => (c :: l) :: ls
    | [] => [[c]]

/-! ### normalize (parse_statute.py lines 44-50)

Steps, in source order: NBSP to space, runs of `[\t\f\r]` to one space, runs of
two or more spaces to one space, `\r?\n` to `\n` (a no-op after step two), strip. -/

def isTFR (c : Char) : Bool := c.toNat == 9 || c.toNat == 12 || c.toNat == 13

mutual
def subTFR : Str → Str
  | [] => []
  | c :: rest => if isTFR c then ' ' :: subTFRSkip rest else c :: subTFR rest
def subTFRSkip : Str → Str
  | [] => []
  | c :: rest => if isTFR c then subTFRSkip rest else c :: subTFR rest
end

mutual
def collapseSpaces : Str → Str
  | [] => []
  | c :: rest => if c == ' ' then ' ' :: collapseSpacesSkip rest else c :: collapseSpaces rest
def collapseSpacesSkip : Str → Str
  | [] => []
  | c :: rest => if c == ' ' then collapseSpacesSkip rest else c :: collapseSpaces rest
end

def subCRLF : Str → Str
  | '\r' :: '\n' :: rest => '\n' :: subCRLF rest
  | c :: rest => c :: subCRLF rest
  | [] => []

def normalize (text : Str) : Str :=
  stripStr (subCRLF (collapseSpaces (subTFR (text.map (fun c => if c.toNat == 160 then ' ' else c)))))

/-! ### Label grammar and detect_label (parse_statute.py lines 12-20, 97-102)

`LABEL_PATTERNS` is an ordered list; each entry anchors at the line start:
a parenthesized label over one alphabet followed by one whitespace character.
`match.end()` is the position just after that whitespace character. -/

/-- Match `^\(([α]{2})\)\s` for a character class α. -/
def matchTwo (p : Char → Bool) : Str → Option Str
  | c0 :: a :: b :: c3 :: w :: _ =>
    if c0 == '(' && p a && p b && c3 == ')' && isPySpace w then some [a, b] else none
  | _ => none

/-- Match `^\(([α]+)\)\s` for a character class α (greedy; α never contains a parenthesis). -/
def matchPlus (p : Char → Bool) : Str → Option Str
  | c0 :: rest =>
    if c0 == '(' then
      let lab := rest.takeWhile p
      if lab.isEmpty then none
      else
        match rest.dropWhile p with
        | c1 :: w :: _ => if c1 == ')' && isPySpace w then some lab else none
        | _ => none
    else none
  | [] => none

/-- Match `^\(([α])\)\s` for a character class α. -/
def matchOne (p : Char → Bool) : Str → Option Str
  | c0 :: a :: c2 :: w :: _ =>
    if c0 == '(' && p a && c2 == ')' && isPySpace w then some [a] else none
  | _ => none

/-- Translation of `detect_label`: try the `LABEL_PATTERNS` entries in their fixed order
(item, subitem, clause, subclause, paragraph, subparagraph, subsection) and return
the level name, the captured label, and the match end position. -/
def detect_label (line : Str) : Option (Str × Str × Nat) :=
  match matchTwo isLowerAlpha line with
  | some l => some ("item".data, l, 5)
  | none =>
  match matchTwo isUpperAlpha line with
  | some l => some ("subitem".data, l, 5)
  | none =>
  match matchPlus isRomanLower line with
  | some l => some ("clause".data, l, l.length + 3)
  | none =>
  match matchPlus isRomanUpper line with
  | some l => some ("subclause".data, l, l.length + 3)
  | none =>
  match matchPlus isDigitCh line with
  | some l => some ("paragraph".data, l, l.length + 3)
  | none =>
  match matchOne isUpperAlpha line with
  | some l => some ("subparagraph".data, l, 4)
  | none =>
  match matchOne isLowerAlpha line with
  | some l => some ("subsection".data, l, 4)
  | none => none

def LEVEL_ORDER : List Str :=
  ["section".data, "subsection".data, "paragraph".data, "subparagraph".data,
   "clause".data, "subclause".data, "item".data, "subitem".data]

/-- Position of a level name in `LEVEL_ORDER` (`LEVEL_ORDER.index`; every level fed to it
by the builder occurs in the list). -/
def levelIndex (lv : Str) : Nat :=
  (LEVEL_ORDER.findIdx? (fun l => l == lv)).getD LEVEL_ORDER.length

/-! ### heading_and_body (parse_statute.py lines 105-117) -/

/-- Locate the first `\.\s+` separator: returns the text before the dot and the text after
the (greedily consumed) whitespace run, mirroring `re.split` with `maxsplit=1`. -/
def splitHB : Str → Option (Str × Str)
  | [] => none
  | '.' :: c :: rest =>
    if isPySpace c then some ([], (c :: rest).dropWhile isPySpace)
    else (fun r => ('.' :: r.1, r.2)) <$> splitHB (c :: rest)
  | c :: rest => (fun r => (c :: r.1, r.2)) <$> splitHB rest

def headIsUpper : Str → Bool
  | [] => false
  | c :: _ => isUpperAlpha c

/-- Translation of `heading_and_body`: split a candidate heading (at most 80 characters,
starting uppercase, before the first period-plus-whitespace) from the body. -/
def heading_and_body (body : Str) : Option Str × Str :=
  let candidate := stripStr body
  if candidate.isEmpty then (none, [])
  else
    match splitHB candidate with
    | some (before, after) =>
      let hc := stripStr before
      if !hc.isEmpty && hc.length ≤ 80 && headIsUpper hc then (some hc, stripStr after)
      else (none, candidate)
    | none => (none, candidate)

/-! ### Data model

Nodes and documents are Python dicts in the source. A node always carries the six
keys built by `new_node`. A document's key set differs between the two `parse`
outcomes: the success path builds the eight keys `id, type, source, heading, nodes,
links, spans, meta`, while the degraded manual-assist path builds only
`id, type, source, nodes`. Possibly-absent keys are modelled with `Option`
(`none` = the key is absent). `spans` is only ever the empty list and `meta` only
ever the empty map when present, and the core never reads their contents, so their
presence is recorded as `Option Unit`. A `source.title` may be a Python `int` or
`str`; `PyVal` captures that, with `pyValStr` the behaviour of Python `str(...)`. -/

inductive PyVal where
  | pnat : Nat → PyVal
  | pstr : Str → PyVal
deriving DecidableEq

def pyValStr : PyVal → Str
  | .pnat n => natToStr n
  | .pstr s => s

structure SourceDesc where
  work : Str
  title : PyVal
  sectionField : Str
deriving DecidableEq

inductive Node where
  | mk (id label level : Str) (heading : Option Str) (text : Str) (children : List Node)

def Node.id : Node → Str
  | .mk i _ _ _ _ _ => i

def Node.label : Node → Str
  | .mk _ la _ _ _ _ => la

def Node.level : Node → Str
  | .mk _ _ lv _ _ _ => lv

def Node.heading : Node → Option Str
  | .mk _ _ _ h _ _ => h

def Node.text : Node → Str
  | .mk _ _ _ _ t _ => t

def Node.children : Node → List Node
  | .mk _ _ _ _ _ cs => cs

def Node.withText (t : Str) : Node → Node
  | .mk i la lv h _ cs => .mk i la lv h t cs

/-- Python `parent["children"].append(child)`: the first argument is the parent. -/
def Node.addChild : Node → Node → Node
  | .mk i la lv h t cs, child => .mk i la lv h t (cs ++ [child])

structure Link where
  source : Str
  target : Str
  relation : Str
  scope : Str
  ref_text : Str
  /-- The float constants 0.95 and 0.9 of the source, stored as hundredths
  (95 and 90); the code only ever stores and copies them. -/
  confidence : Nat
deriving DecidableEq

structure Document where
  id : Str
  type : Str
  source : SourceDesc
  /-- Value `none` means the `heading` key is absent (degraded document); `some h`
  means it is present with the optional heading value `h`. -/
  heading : Option (Option Str)
  nodes : List Node
  /-- Value `none` means the `links` key is absent. -/
  links : Option (List Link)
  /-- Value `some ()` means the `spans` key is present (its value is always the
  empty list). -/
  spans : Option Unit
  /-- Value `some ()` means the `meta` key is present (its value is always the
  empty map). -/
  meta : Option Unit

structure ParseResult where
  document : Document
  needs_llm_assist : Bool

/-! ### Header grammars (parse_statute.py lines 35-36)

Patterns `HEADER_USC = (?m)^(\d+)\s*(U\.?S\.?C\.?)?\s*§\s*([0-9A-Za-z\-]+)\s*(.*)$`
and `HEADER_CFR = (?m)^(\d+)\s*CFR\s*§\s*([0-9]+\.[0-9\-]+)\s*(.*)$` are multiline
searches. Only the anchors are line-based: each interior `\s*` may cross
newlines, so a match starts at a line start but may span several lines; the
trailing `\s*(.*)$` lands on whichever line the final whitespace run ends on and
captures it to its end (`$` then always holds, so no backtracking arises there
either). The search is therefore modelled by running a deterministic matcher on
every line-start suffix of the text, in order, and returning the first success
together with the consumed prefix (group 0, used by `parse` to skip header
lines). Every matcher is deterministic because each greedy repetition is
delimited by a character outside its class. The source files spell the section
sign as the mojibake byte sequence `ยง` (the UTF-8 bytes of `§` decoded as the
wrong charset, consistently in code and tests alike); the embedding renders this
opaque delimiter token as the character `§` throughout. -/

/-- Character class `[0-9A-Za-z\-]` of the section token in `HEADER_USC`
(unlike the `[0-9A-Za-z\.\-]` of `ABS_REF`, it has no dot). -/
def isUscSecChar (c : Char) : Bool :=
  isDigitCh c || isLowerAlpha c || isUpperAlpha c || c == '-'

/-- Consume an optional `U\.?S\.?C\.?` token; if the token does not fully match,
consume nothing (the regex group is optional and all-or-nothing here, since a
partial token can never be followed by the required section sign). -/
def skipUSCToken (cs : Str) : Str :=
  match cs with
  | 'U' :: cs1 =>
    let cs2 := if cs1.head? == some '.' then cs1.drop 1 else cs1
    match cs2 with
    | 'S' :: cs3 =>
      let cs4 := if cs3.head? == some '.' then cs3.drop 1 else cs3
      match cs4 with
      | 'C' :: cs5 => if cs5.head? == some '.' then cs5.drop 1 else cs5
      | _ => cs
    | _ => cs
  | _ => cs

/-- Attempt `HEADER_USC` at a line-start suffix of the text: digits, whitespace
(possibly crossing newlines), the optional USC token, the section sign, the
section token, then the rest of the line the final whitespace run ends on.
Returns group 0 (the consumed prefix), group 1 (title), group 3 (section) and
group 4 (trailing text). -/
def matchUSCFrom (cs : Str) : Option (Str × Str × Str × Str) :=
  let t := cs.takeWhile isDigitCh
  if t.isEmpty then none
  else
    let r1 := (cs.dropWhile isDigitCh).dropWhile isPySpace
    let r2 := (skipUSCToken r1).dropWhile isPySpace
    match r2 with
    | '§' :: r3 =>
      let r4 := r3.dropWhile isPySpace
      let sec := r4.takeWhile isUscSecChar
      if sec.isEmpty then none
      else
        let r5 := (r4.dropWhile isUscSecChar).dropWhile isPySpace
        let rest := r5.takeWhile (fun c => c != '\n')
        some (cs.take (cs.length - r5.length + rest.length), t, sec, rest)
    | _ => none

/-- Attempt `HEADER_CFR` at a line-start suffix of the text; groups 0 (consumed
prefix), 1 (title), 2 (section) and 3 (trailing text). -/
def matchCFRFrom (cs : Str) : Option (Str × Str × Str × Str) :=
  let t := cs.takeWhile isDigitCh
  if t.isEmpty then none
  else
    let r1 := (cs.dropWhile isDigitCh).dropWhile isPySpace
    if !startsWithStr "CFR".data r1 then none
    else
      match (r1.drop 3).dropWhile isPySpace with
      | '§' :: r3 =>
        let r4 := r3.dropWhile isPySpace
        let d1 := r4.takeWhile isDigitCh
        if d1.isEmpty then none
        else
          match r4.dropWhile isDigitCh with
          | '.' :: r5 =>
            let d2 := r5.takeWhile isDigitDash
            if d2.isEmpty then none
            else
              let r6 := (r5.dropWhile isDigitDash).dropWhile isPySpace
              let rest := r6.takeWhile (fun c => c != '\n')
              some (cs.take (cs.length - r6.length + rest.length), t,
                d1 ++ '.' :: d2, rest)
          | _ => none
      | _ => none

/-- Multiline search: try the matcher at every line-start suffix (position 0 and
after every newline), in order, returning the first success. Each step past a
failed position consumes at least the newline character, so a fuel of the text
length plus one never runs out. -/
def searchHeaderFuel (m : Str → Option (Str × Str × Str × Str)) :
    Nat → Str → Option (Str × Str × Str × Str)
  | 0, _ => none
  | fuel + 1, cs =>
    match m cs with
    | some r => some r
    | none =>
      match cs.dropWhile (fun c => c != '\n') with
      | _ :: rest => searchHeaderFuel m fuel rest
      | [] => none

def searchUSC (text : Str) : Option (Str × Str × Str × Str) :=
  searchHeaderFuel matchUSCFrom (text.length + 1) text

def searchCFR (text : Str) : Option (Str × Str × Str × Str) :=
  searchHeaderFuel matchCFRFrom (text.length + 1) text

/-! ### Tree builder (parse_statute.py lines 120-142 and 306-345)

The Python builder keeps a stack of aliases into the tree being mutated, rooted at
the section node, and appends every new node to the current stack top. The
functional translation keeps the stack with the innermost open node first and the
root last; a child is appended to its parent when it is popped, so the fold is
followed by a final pop of the whole stack to materialise the tree. Node ids are
computed from the stack labels at creation exactly as `make_node_id` does. -/

/-- Translation of `make_node_id`: the base id, the parenthesized label of every stack
entry above the root (outermost first), then the new label. The stack argument here
is innermost-first, so it is reversed and its root entry dropped. -/
def make_node_id (baseId : Str) (stack : List Node) (label : Str) : Str :=
  let suffixes := (stack.reverse.drop 1).map (fun n => '(' :: stripParens n.label ++ [')'])
  baseId ++ suffixes.flatten ++ ('(' :: label ++ [')'])

/-- Translation of `new_node` (including the `if not node["text"]` fallback applied
by the caller at parse_statute.py lines 333-334, folded in via `stepLine`). -/
def new_node (baseId : Str) (stack : List Node) (level label : Str)
    (headingText : Option Str) (bodyText : Str) : Node :=
  .mk (make_node_id baseId stack label) ('(' :: label ++ [')']) level headingText
    (stripStr bodyText) []

/-- Pop the stack while it has more than one entry and its top is at or below the new
label's depth (`parse` lines 327-328), attaching each popped node to its parent.
The fuel argument of the helper only bounds the number of pops (each pop shortens
the stack, so stack length is always enough fuel). -/
def popStackFuel (idx : Nat) : Nat → List Node → List Node
  | 0, s => s
  | fuel + 1, top :: parent :: rest =>
    if levelIndex top.level ≥ idx then popStackFuel idx fuel (parent.addChild top :: rest)
    else top :: parent :: rest
  | _ + 1, s => s

def popStack (idx : Nat) (s : List Node) : List Node := popStackFuel idx s.length s

/-- Attach every remaining open node to its parent, materialising the tree that the
Python version mutates in place. -/
def popAllFuel : Nat → List Node → List Node
  | 0, s => s
  | fuel + 1, top :: parent :: rest => popAllFuel fuel (parent.addChild top :: rest)
  | _ + 1, s => s

def popAll (s : List Node) : List Node := popAllFuel s.length s

/-- One iteration of the line loop of `parse` (lines 321-345): skip the header line,
open a node on a recognized label, otherwise append the line to the open node's text. -/
def stepLine (baseId headerLine : Str) (stack : List Node) (line : Str) : List Node :=
  if stripStr line = stripStr headerLine then stack
  else
    match detect_label line with
    | some (level, label, pos) =>
      let stack1 := popStack (levelIndex level) stack
      let remainder := stripStr (line.drop pos)
      let hb := heading_and_body remainder
      let node0 := new_node baseId stack1 level label hb.1 hb.2
      let node := if node0.text.isEmpty then node0.withText remainder else node0
      node :: stack1
    | none =>
      match stack with
      | [] => []
      | top :: rest =>
        let addition := stripStr line
        if addition.isEmpty then top :: rest
        else (top.withText (if top.text.isEmpty then addition
          else top.text ++ ' ' :: addition)) :: rest

/-- The successful branch of the text-mode `parse` (lines 282-358): document metadata
from the matched header groups, then the line fold from a fresh section root. -/
def buildTextDoc (text prefixStr docType work headerLine title sec rest : Str) : ParseResult :=
  let baseId := prefixStr ++ ':' :: title ++ ':' :: sec
  let heading := if (stripStr rest).isEmpty then none else some (stripStr rest)
  let sectionNode : Node := .mk baseId [] "section".data heading [] []
  let lines := (splitLines text).filter (fun l => !(stripStr l).isEmpty)
  let finalStack := lines.foldl (stepLine baseId headerLine) [sectionNode]
  { document :=
      { id := baseId, type := docType,
        source := { work := work, title := .pnat (natOfDigits title), sectionField := sec },
        heading := some heading, nodes := popAll finalStack,
        links := some [], spans := some (), meta := some () },
    needs_llm_assist := false }

/-- The degraded manual-assist result of `parse` (lines 294-304): empty node list and
only the best-effort identifier and source fields. -/
def degradedDoc (sourceType citationHint : Str) : ParseResult :=
  { document :=
      { id := if citationHint.isEmpty then "unknown".data else citationHint,
        type := lowerStr sourceType,
        source := { work := upperStr sourceType, title := .pstr citationHint,
                    sectionField := [] },
        heading := none, nodes := [], links := none, spans := none, meta := none },
    needs_llm_assist := true }

/-- Translation of the text-mode `parse` (parse_statute.py lines 273-358; the
`input_format == "uslm"` dispatch to the markup builder is a separate code path not
covered by the embedded claims). The header search selects the grammar by source
type, a failed search returns the degraded manual-assist document, and a successful
one builds the tree. -/
def parse (sourceText sourceType citationHint : Str) : ParseResult :=
  let text := normalize sourceText
  let mCfr := if upperStr sourceType = "CFR".data then searchCFR text else none
  let mUsc := if upperStr sourceType ≠ "CFR".data then searchUSC text else none
  match mCfr with
  | some (line, title, sec, rest) =>
    buildTextDoc text "cfr".data "regulation".data "CFR".data line title sec rest
  | none =>
    match mUsc with
    | some (line, title, sec, rest) =>
      buildTextDoc text "usc".data "statute".data "USC".data line title sec rest
    | none => degradedDoc sourceType citationHint


/-! ### Reference patterns (resolve_links.py lines 10-31)

Scanners model `finditer`: scan left to right, attempt a match at every position,
and on success continue after the match (all matches here are non-empty). A word
boundary before a pattern that starts with a word character holds exactly when the
previous character is absent or not a word character. As with the header grammars,
each pattern is deterministic over its input: alternation branches are mutually
exclusive at any one position and every repetition is delimited by a character
outside its class, so greedy scanning equals the regex semantics. -/

def REL_NOUNS : List Str :=
  ["paragraph".data, "subparagraph".data, "clause".data, "subclause".data, "subsection".data]

def wordBoundaryOK (prev : Option Char) : Bool :=
  match prev with
  | none => true
  | some c => !isWordChar c

/-- Try the alternation of level nouns (case-insensitively, in the pattern's order)
as a prefix; returns the consumed length and the lowercased noun. -/
def nounTry (cs : Str) : List Str → Option (Nat × Str)
  | [] => none
  | n :: ns => if startsWithCI n cs then some (n.length, n) else nounTry cs ns

/-- Parse the maximal run of complete `\([^)]+\)` groups at the head of the input
(the `((\([^)]+\))+)` part of `REL_REF`); returns the inner labels in order. Each
step consumes at least one character, so a fuel of the input length never runs out. -/
def parenGroupsFuel : Nat → Str → List Str
  | 0, _ => []
  | fuel + 1, cs =>
    match cs with
    | '(' :: rest =>
      let inner := rest.takeWhile (fun c => c != ')')
      if inner.isEmpty then []
      else
        match rest.dropWhile (fun c => c != ')') with
        | ')' :: rest2 => inner :: parenGroupsFuel fuel rest2
        | _ => []
    | _ => []

def parenGroups (cs : Str) : List Str := parenGroupsFuel cs.length cs

/-- Python `re.findall(r"\(([^)]+)\)", paren)`: every parenthesized group anywhere in
the string (used on the consecutive groups captured by `REL_REF`, over which it
returns exactly their labels). -/
def findallParensFuel : Nat → Str → List Str
  | 0, _ => []
  | fuel + 1, cs =>
    match cs with
    | '(' :: rest =>
      let inner := rest.takeWhile (fun c => c != ')')
      if inner.isEmpty then findallParensFuel fuel rest
      else
        match rest.dropWhile (fun c => c != ')') with
        | ')' :: rest2 => inner :: findallParensFuel fuel rest2
        | _ => findallParensFuel fuel rest
    | _ :: rest => findallParensFuel fuel rest
    | [] => []

def findallParens (cs : Str) : List Str := findallParensFuel cs.length cs

/-- Attempt `REL_REF` at the head of the input: a level noun, whitespace, then one or
more consecutive parenthesized labels. Returns the match length, the lowercased
noun (group 1) and the concatenated label groups (group 2). -/
def relTryAt (prev : Option Char) (cs : Str) : Option (Nat × Str × Str) :=
  if !wordBoundaryOK prev then none
  else
    match nounTry cs REL_NOUNS with
    | none => none
    | some (nlen, noun) =>
      let afterNoun := cs.drop nlen
      let ws := afterNoun.takeWhile isPySpace
      if ws.isEmpty then none
      else
        let afterWs := afterNoun.dropWhile isPySpace
        match parenGroups afterWs with
        | [] => none
        | gs =>
          let plen := (gs.map (fun g => g.length + 2)).foldl (· + ·) 0
          some (nlen + ws.length + plen, noun, (gs.map (fun g => '(' :: g ++ [')'])).flatten)

/-- Attempt `THIS_REF` at the head of the input: the word `this`, whitespace, a level
noun, then a trailing word boundary. Returns the match length and lowercased noun. -/
def thisTryAt (prev : Option Char) (cs : Str) : Option (Nat × Str) :=
  if !wordBoundaryOK prev then none
  else if !startsWithCI "this".data cs then none
  else
    let afterThis := cs.drop 4
    let ws := afterThis.takeWhile isPySpace
    if ws.isEmpty then none
    else
      let afterWs := afterThis.dropWhile isPySpace
      match nounTry afterWs REL_NOUNS with
      | none => none
      | some (nlen, noun) =>
        match (afterWs.drop nlen).head? with
        | some c => if isWordChar c then none else some (4 + ws.length + nlen, noun)
        | none => some (4 + ws.length + nlen, noun)

/-- Attempt `ABS_REF` at the head of the input: the word `section`, whitespace, a
section token, then at most one optional parenthesized suffix. Returns the match
length, the section token (group 1) and the suffix including parentheses (group 2,
empty when absent). -/
def absTryAt (prev : Option Char) (cs : Str) : Option (Nat × Str × Str) :=
  if !wordBoundaryOK prev then none
  else if !startsWithCI "section".data cs then none
  else
    let afterNoun := cs.drop 7
    let ws := afterNoun.takeWhile isPySpace
    if ws.isEmpty then none
    else
      let afterWs := afterNoun.dropWhile isPySpace
      let sec := afterWs.takeWhile isSecChar
      if sec.isEmpty then none
      else
        let afterSec := afterWs.dropWhile isSecChar
        let suffix : Str :=
          match afterSec with
          | '(' :: r =>
            let inner := r.takeWhile (fun c => c != ')')
            if inner.isEmpty then []
            else
              match r.dropWhile (fun c => c != ')') with
              | ')' :: _ => '(' :: inner ++ [')']
              | _ => []
          | _ => []
        some (7 + ws.length + sec.length + suffix.length, sec, suffix)

/-- Generic `finditer` driver: returns `(start, end, group 0, payload)` for every
non-overlapping match, scanning left to right. Every step consumes at least one
character (every pattern here matches at least one), so a fuel of the input length
never runs out. -/
def scanAuxFuel (tryAt : Option Char → Str → Option (Nat × α)) :
    Nat → Option Char → Nat → Str → List (Nat × Nat × Str × α)
  | 0, _, _, _ => []
  | _ + 1, _, _, [] => []
  | fuel + 1, prev, pos, cs@(c :: rest) =>
    match tryAt prev cs with
    | some (len, a) =>
      if len == 0 then scanAuxFuel tryAt fuel (some c) (pos + 1) rest
      else
        (pos, pos + len, cs.take len, a) ::
          scanAuxFuel tryAt fuel (cs.take len).getLast? (pos + len) (cs.drop len)
    | none => scanAuxFuel tryAt fuel (some c) (pos + 1) rest

def scanAux (tryAt : Option Char → Str → Option (Nat × α)) (text : Str) :
    List (Nat × Nat × Str × α) :=
  scanAuxFuel tryAt text.length none 0 text

def scanRel (text : Str) : List (Nat × Nat × Str × Str × Str) := scanAux relTryAt text

def scanThis (text : Str) : List (Nat × Nat × Str × Str) := scanAux thisTryAt text

def scanAbs (text : Str) : List (Nat × Nat × Str × Str × Str) := scanAux absTryAt text

/-! ### Relation cues and detect_relation (resolve_links.py lines 10-16, 67-73) -/

/-- Search for the `the term .+ means` cue: after an occurrence of `the term `, at
least one non-newline character followed by ` means`. -/
def meansAfter : Str → Bool → Bool
  | cs, seen =>
    (seen && startsWithCI " means".data cs) ||
      match cs with
      | [] => false
      | c :: rest => c != '\n' && meansAfter rest true

def defCueSearch : Str → Bool
  | [] => false
  | cs@(_ :: rest) =>
    (startsWithCI "the term ".data cs && meansAfter (cs.drop 9) false) || defCueSearch rest

/-- Translation of `detect_relation`: the `RELATION_CUES` entries in order, then
`see-also` when any reference pattern occurs, else no relation. -/
def detect_relation (text : Str) : Option Str :=
  if containsCI "for purposes of".data text then some "for-purposes-of".data
  else if containsCI "subject to".data text then some "subject-to".data
  else if containsCI "except as provided".data text then some "exception-to".data
  else if containsCI "notwithstanding".data text then some "notwithstanding".data
  else if defCueSearch text then some "definition-of".data
  else if !(scanAbs text).isEmpty || !(scanRel text).isEmpty || !(scanThis text).isEmpty then
    some "see-also".data
  else none

/-! ### Target construction (resolve_links.py lines 24-32, 59-64, 76-86) -/

/-- Python `str.isalpha()` over ASCII: non-empty and all letters. -/
def pyIsAlpha (s : Str) : Bool := !s.isEmpty && s.all (fun c => isLowerAlpha c || isUpperAlpha c)

/-- Python `str.islower()` over ASCII: at least one cased character and no uppercase one. -/
def pyIsLower (s : Str) : Bool :=
  s.any (fun c => isLowerAlpha c || isUpperAlpha c) && s.all (fun c => !isUpperAlpha c)

/-- Python `str.isupper()` over ASCII: at least one cased character and no lowercase one. -/
def pyIsUpper (s : Str) : Bool :=
  s.any (fun c => isLowerAlpha c || isUpperAlpha c) && s.all (fun c => !isLowerAlpha c)

/-- Python `str.isdigit()` over ASCII: non-empty and all digits. -/
def pyIsDigit (s : Str) : Bool := !s.isEmpty && s.all isDigitCh

/-- Translation of the `EXPECTED_LABEL_PREDICATES` dict. -/
def expectedLabelPredicate (noun : Str) : Option (Str → Bool) :=
  if noun = "subsection".data then some (fun v => pyIsAlpha v && pyIsLower v)
  else if noun = "paragraph".data then some pyIsDigit
  else if noun = "subparagraph".data then some (fun v => pyIsAlpha v && pyIsUpper v)
  else if noun = "clause".data then
    some (fun v => !(lowerStr v).isEmpty && (lowerStr v).all isRomanLower)
  else if noun = "subclause".data then some (fun v => !v.isEmpty && v.all isRomanUpper)
  else if noun = "item".data then
    some (fun v => pyIsAlpha v && pyIsLower v && v.length == 2)
  else if noun = "subitem".data then
    some (fun v => pyIsAlpha v && pyIsUpper v && v.length == 2)
  else none

/-- Translation of `nearest_ancestor_of_level`: walk the path from the node outward
to the root for a node of the given level; if none matches, fall back to the last
element of the path (the node itself), or `none` on an empty path. -/
def nearest_ancestor_of_level (path : List Node) (level : Str) : Option Node :=
  match path.reverse.find? (fun n => n.level == level) with
  | some n => some n
  | none => path.getLast?

/-- The label sequence a base path contributes: the stripped label of every node on
it that has a non-empty label. -/
def baseLabelsOf (basePath : List Node) : List Str :=
  (basePath.filter (fun n => !n.label.isEmpty)).map (fun n => stripParens n.label)

/-- Translation of `build_target_id`: the predicate check (`if predicate and
suffix_labels: if not predicate(first): base_labels = []`), then the duplicate
drop (`if base_labels and suffix_labels and suffix_labels[0] == base_labels[-1]`),
then the concatenation. -/
def build_target_id (baseId : Str) (basePath : List Node) (suffixLabels : List Str)
    (noun : Str) : Str :=
  let baseLabels0 := baseLabelsOf basePath
  let baseLabels1 :=
    match expectedLabelPredicate noun with
    | none => baseLabels0
    | some p =>
      match suffixLabels.head? with
      | none => baseLabels0
      | some first => if p first = false then [] else baseLabels0
  let baseLabels2 :=
    match suffixLabels.head? with
    | none => baseLabels1
    | some first =>
      match baseLabels1.getLast? with
      | none => baseLabels1
      | some lastL => if first = lastL then baseLabels1.dropLast else baseLabels1
  baseId ++ ((baseLabels2 ++ suffixLabels).map (fun l => '(' :: l ++ [')'])).flatten

/-! ### Tree walks (resolve_links.py lines 34-56) -/

mutual
def flattenN : Node → List Node
  | .mk i la lv h t cs => .mk i la lv h t cs :: flattenL cs
def flattenL : List Node → List Node
  | [] => []
  | n :: ns => flattenN n ++ flattenL ns
end

mutual
def buildPathsN (acc : List Node) : Node → List (Str × List Node)
  | .mk i la lv h t cs =>
    (i, acc ++ [Node.mk i la lv h t cs]) :: buildPathsL (acc ++ [Node.mk i la lv h t cs]) cs
def buildPathsL (acc : List Node) : List Node → List (Str × List Node)
  | [] => []
  | n :: ns => buildPathsN acc n ++ buildPathsL acc ns
end

/-- Python dict lookup over insertion-ordered bindings: the latest binding wins. -/
def dictGetPath (k : Str) : List (Str × List Node) → Option (List Node)
  | [] => none
  | (k2, v) :: rest =>
    match dictGetPath k rest with
    | some r => some r
    | none => if k2 = k then some v else none

/-! ### resolve (resolve_links.py lines 89-178)

The Python resolver walks the flattened tree, computing for each node a relation,
a list of links, and a list of text replacements, then rewrites the node's text
right-to-left and finally replaces the document's `links` list wholesale. Each
node's links and replacements depend only on its own (original) text, its id, the
precomputed path dict, the document's id and its source descriptor, so the
translation computes them per node and rebuilds the tree. -/

/-- Target id of one relative reference from a node (the `REL_REF` loop body,
lines 124-132). -/
def relTargetId (baseId : Str) (paths : List (Str × List Node)) (nodeId : Str)
    (noun paren : Str) : Str :=
  let path := (dictGetPath nodeId paths).getD []
  let ancestor := nearest_ancestor_of_level path noun
  let ancestorPath :=
    match ancestor with
    | some a => (dictGetPath a.id paths).getD []
    | none => []
  build_target_id baseId ancestorPath.dropLast (findallParens paren) noun

/-- Target id of one absolute reference (the `ABS_REF` loop body, lines 155-165). -/
def absTargetId (sourceWork sourceTitle sec parens : Str) : Str :=
  let prefixStr := if sourceWork = "CFR".data then "cfr".data else "usc".data
  let parts := prefixStr :: (if sourceTitle.isEmpty then [] else [sourceTitle]) ++ [sec ++ parens]
  match parts with
  | [] => []
  | p :: ps => p ++ (ps.map (fun q => ':' :: q)).flatten

/-- Links contributed by one node, in the source's order: relative, self, absolute. -/
def nodeLinks (baseId : Str) (paths : List (Str × List Node))
    (sourceWork sourceTitle : Str) (n : Node) : List Link :=
  let text := n.text
  if text.isEmpty then []
  else
    let relation := (detect_relation text).getD "see-also".data
    let relLinks := (scanRel text).map (fun m =>
      { source := n.id, target := relTargetId baseId paths n.id m.2.2.2.1 m.2.2.2.2,
        relation := relation, scope := "intra-section".data, ref_text := m.2.2.1,
        confidence := 95 })
    let thisLinks := (scanThis text).filterMap (fun m =>
      let path := (dictGetPath n.id paths).getD []
      match nearest_ancestor_of_level path m.2.2.2 with
      | some a =>
        some { source := n.id, target := a.id, relation := relation,
               scope := "intra-section".data, ref_text := m.2.2.1, confidence := 90 }
      | none => none)
    let absLinks := (scanAbs text).map (fun m =>
      { source := n.id, target := absTargetId sourceWork sourceTitle m.2.2.2.1 m.2.2.2.2,
        relation := relation, scope := "inter-section".data, ref_text := m.2.2.1,
        confidence := 95 })
    relLinks ++ thisLinks ++ absLinks

/-- Text replacements contributed by one node, in the source's accumulation order. -/
def nodeRepls (baseId : Str) (paths : List (Str × List Node))
    (sourceWork sourceTitle : Str) (n : Node) : List (Nat × Nat × Str) :=
  let text := n.text
  if text.isEmpty then []
  else
    let relRepls := (scanRel text).map (fun m =>
      (m.1, m.2.1, m.2.2.1 ++ ' ' :: '[' :: '[' ::
        relTargetId baseId paths n.id m.2.2.2.1 m.2.2.2.2 ++ [']', ']']))
    let thisRepls := (scanThis text).filterMap (fun m =>
      let path := (dictGetPath n.id paths).getD []
      match nearest_ancestor_of_level path m.2.2.2 with
      | some a => some (m.1, m.2.1, m.2.2.1 ++ ' ' :: '[' :: '[' :: a.id ++ [']', ']'])
      | none => none)
    let absRepls := (scanAbs text).map (fun m =>
      (m.1, m.2.1, m.2.2.1 ++ ' ' :: '[' :: '[' ::
        absTargetId sourceWork sourceTitle m.2.2.2.1 m.2.2.2.2 ++ [']', ']']))
    relRepls ++ thisRepls ++ absRepls

/-- Python `sorted(..., key=lambda x: x[0], reverse=True)`: stable descending sort by
start offset, built by inserting each element after all entries with a greater or
equal key. -/
def insertDescByStart (r : Nat × Nat × Str) : List (Nat × Nat × Str) → List (Nat × Nat × Str)
  | [] => [r]
  | x :: xs => if x.1 ≥ r.1 then x :: insertDescByStart r xs else r :: x :: xs

def sortDescByStart (l : List (Nat × Nat × Str)) : List (Nat × Nat × Str) :=
  l.foldl (fun acc r => insertDescByStart r acc) []

/-- Apply the replacements right-to-left (`resolve` lines 171-175). -/
def applyRepls (text : Str) (repls : List (Nat × Nat × Str)) : Str :=
  if repls.isEmpty then text
  else (sortDescByStart repls).foldl
    (fun t r => t.take r.1 ++ r.2.2 ++ t.drop r.2.1) text

mutual
def rewriteN (baseId : Str) (paths : List (Str × List Node))
    (sourceWork sourceTitle : Str) : Node → Node
  | .mk i la lv h t cs =>
    .mk i la lv h
      (applyRepls t (nodeRepls baseId paths sourceWork sourceTitle (.mk i la lv h t cs)))
      (rewriteL baseId paths sourceWork sourceTitle cs)
def rewriteL (baseId : Str) (paths : List (Str × List Node))
    (sourceWork sourceTitle : Str) : List Node → List Node
  | [] => []
  | n :: ns =>
    rewriteN baseId paths sourceWork sourceTitle n :: rewriteL baseId paths sourceWork sourceTitle ns
end

/-- Translation of `resolve`. On a document with no nodes it only defaults the
`links` key; otherwise it extracts links from every node of the first root in
flattened pre-order, rewrites node texts, and replaces the `links` list. -/
def resolve (doc : Document) : Document :=
  match doc.nodes with
  | [] => { doc with links := some (doc.links.getD []) }
  | root :: restNodes =>
    let baseId := doc.id
    let paths := buildPathsN [] root
    let sourceWork := upperStr doc.source.work
    let sourceTitle := stripStr (pyValStr doc.source.title)
    let links := (flattenN root).flatMap (nodeLinks baseId paths sourceWork sourceTitle)
    { doc with
        nodes := rewriteN baseId paths sourceWork sourceTitle root :: restNodes,
        links := some links }


/-! ### Verification helpers

Definitions used only to state and prove properties of the embedding above:
the level of the last (root) entry of a builder stack, a text-erasing projection
of trees used to state the resolver frame property, the header-match predicate of
the text parser, and concrete documents exercising the pipeline. -/

/-- Level of the bottom (root) entry of a builder stack. -/
def lastLevel : List Node → Option Str
  | [] => none
  | [n] => some n.level
  | _ :: rest => lastLevel rest

mutual
/-- Erase every `text` field of a tree, keeping id, label, level, heading and the
child structure; two trees agree under `eraseTextN` exactly when they differ at
most in node texts. -/
def eraseTextN : Node → Node
  | .mk i la lv h _ cs => .mk i la lv h [] (eraseTextL cs)
def eraseTextL : List Node → List Node
  | [] => []
  | n :: ns => eraseTextN n :: eraseTextL ns
end

/-- The condition under which the text-mode `parse` takes its successful branch: the
header grammar selected by the source type finds a matching line. -/
def headerMatched (sourceText sourceType : Str) : Bool :=
  if upperStr sourceType = "CFR".data then (searchCFR (normalize sourceText)).isSome
  else (searchUSC (normalize sourceText)).isSome

/-- The spec's end-to-end scenario input: a USC header, subsection (a), and two
paragraphs carrying the two cue phrases (the resolver stamps one relation per node,
so the scenario's two cue phrases sit in two distinct paragraph nodes). -/
def c1Input : Str :=
  ("26 U.S.C. § 162 Trade or business expenses.\n" ++
   "(a) In general. There shall be allowed as a deduction all the ordinary expenses.\n" ++
   "(1) Ordinary expenses. For purposes of subsection (a), amounts paid are deductible.\n" ++
   "(2) Limits. Any deduction is subject to section 274 of this title.").data

/-- A paragraph directly under the section root (no subsection ancestor), whose text
holds a self reference to a subsection. -/
def c2Para : Node :=
  .mk "usc:1:1(1)".data "(1)".data "paragraph".data none
    "See this subsection for details.".data []

def c2Root : Node := .mk "usc:1:1".data [] "section".data none [] [c2Para]

def c2Doc : Document :=
  { id := "usc:1:1".data, type := "statute".data,
    source := { work := "USC".data, title := .pnat 1, sectionField := "1".data },
    heading := some none, nodes := [c2Root], links := some [],
    spans := some (), meta := some () }

/-- A document whose own id contains reference-like text (`section 9`): the pointer
the resolver inserts for the relative reference is then itself matched by `ABS_REF`
on a second run. -/
def c8Node : Node :=
  .mk "n0".data [] "section".data none "see section 9(z) and paragraph (z)".data []

def c8AdvDoc : Document :=
  { id := "section 9".data, type := "statute".data,
    source := { work := "USC".data, title := .pstr [], sectionField := "9".data },
    heading := some none, nodes := [c8Node], links := some [],
    spans := some (), meta := some () }

def c8RelLink : Link :=
  { source := "n0".data, target := "section 9(z)".data, relation := "see-also".data,
    scope := "intra-section".data, ref_text := "paragraph (z)".data, confidence := 95 }

def c8AbsLink : Link :=
  { source := "n0".data, target := "usc:9(z)".data, relation := "see-also".data,
    scope := "inter-section".data, ref_text := "section 9(z)".data, confidence := 95 }

/-- A paragraph node used to exercise `build_target_id` with a one-label base path. -/
def c7BaseNode : Node := .mk "usc:26:162(1)".data "(1)".data "paragraph".data none [] []

/-- A no-node document for the empty-resolve claim. -/
def c10EmptyDoc : Document :=
  { id := "x".data, type := "statute".data,
    source := { work := "USC".data, title := .pstr [], sectionField := [] },
    heading := none, nodes := [], links := none, spans := none, meta := none }


/-! ### Supporting lemmas -/

theorem isUpper_not_lower (c : Char) (h : isUpperAlpha c = true) : isLowerAlpha c = false := by
  simp [isUpperAlpha, isLowerAlpha] at *
  omega

theorem isLower_not_upper (c : Char) (h : isLowerAlpha c = true) : isUpperAlpha c = false := by
  simp [isUpperAlpha, isLowerAlpha] at *
  omega

theorem isRoman_isLower (c : Char) (h : isRomanLower c = true) : isLowerAlpha c = true := by
  simp [isRomanLower] at h
  rcases h with ((((((h | h) | h) | h) | h) | h) | h) <;> subst h <;> decide

theorem isRoman_not_upper (c : Char) (h : isRomanLower c = true) : isUpperAlpha c = false :=
  isLower_not_upper c (isRoman_isLower c h)

theorem isRoman_ne_rparen (c : Char) (h : isRomanLower c = true) : (c == ')') = false := by
  simp [isRomanLower] at h
  rcases h with ((((((h | h) | h) | h) | h) | h) | h) <;> subst h <;> decide

theorem isRoman_rparen_false : isRomanLower ')' = false := by decide

theorem isLowerAlpha_rparen : isLowerAlpha ')' = false := by decide

theorem isUpperAlpha_rparen : isUpperAlpha ')' = false := by decide

theorem takeWhile_all_append (p : Char → Bool) (xs ys : Str) (h : ∀ a ∈ xs, p a = true) :
    (xs ++ ys).takeWhile p = xs ++ ys.takeWhile p := by
  induction xs with
  | nil => simp
  | cons a tl ih =>
    have ha : p a = true := h a (by simp)
    simp only [List.cons_append, List.takeWhile_cons, ha, if_true]
    rw [ih (fun b hb => h b (by simp [hb]))]

theorem dropWhile_all_append (p : Char → Bool) (xs ys : Str) (h : ∀ a ∈ xs, p a = true) :
    (xs ++ ys).dropWhile p = ys.dropWhile p := by
  induction xs with
  | nil => simp
  | cons a tl ih =>
    have ha : p a = true := h a (by simp)
    simp only [List.cons_append, List.dropWhile_cons, ha, if_true]
    exact ih (fun b hb => h b (by simp [hb]))

theorem addChild_level (parent child : Node) : (parent.addChild child).level = parent.level := by
  cases parent
  rfl

theorem withText_level (t : Str) (n : Node) : (n.withText t).level = n.level := by
  cases n
  rfl

theorem lastLevel_cons (a : Node) (l : List Node) (h : l ≠ []) :
    lastLevel (a :: l) = lastLevel l := by
  cases l with
  | nil => exact absurd rfl h
  | cons b t => rfl

theorem lastLevel_congr (a b : Node) (h : a.level = b.level) (l : List Node) :
    lastLevel (a :: l) = lastLevel (b :: l) := by
  cases l with
  | nil => simp [lastLevel, h]
  | cons x t => rfl

theorem lastLevel_pop (top parent : Node) (rest : List Node) :
    lastLevel (parent.addChild top :: rest) = lastLevel (top :: parent :: rest) := by
  cases rest with
  | nil => simp [lastLevel, addChild_level]
  | cons x t => rfl

theorem popStackFuel_inv (idx : Nat) :
    ∀ (fuel : Nat) (s : List Node),
      lastLevel (popStackFuel idx fuel s) = lastLevel s ∧
      (s ≠ [] → popStackFuel idx fuel s ≠ []) := by
  intro fuel
  induction fuel with
  | zero => intro s; exact ⟨rfl, fun h => h⟩
  | succ fuel ih =>
    intro s
    rcases s with _ | ⟨top, _ | ⟨parent, rest⟩⟩
    · simp [popStackFuel]
    · simp [popStackFuel]
    · by_cases h : levelIndex top.level ≥ idx
      · have hrec := ih (parent.addChild top :: rest)
        simp only [popStackFuel, if_pos h]
        exact ⟨hrec.1.trans (lastLevel_pop top parent rest), fun _ => hrec.2 (by simp)⟩
      · simp [popStackFuel, h]

theorem popStack_inv (idx : Nat) (s : List Node) :
    lastLevel (popStack idx s) = lastLevel s ∧ (s ≠ [] → popStack idx s ≠ []) :=
  popStackFuel_inv idx s.length s

theorem popAllFuel_singleton :
    ∀ (fuel : Nat) (s : List Node), s.length ≤ fuel + 1 → s ≠ [] →
      ∃ r, popAllFuel fuel s = [r] ∧ some r.level = lastLevel s := by
  intro fuel
  induction fuel with
  | zero =>
    intro s hlen hne
    rcases s with _ | ⟨a, _ | ⟨b, t⟩⟩
    · exact absurd rfl hne
    · exact ⟨a, rfl, rfl⟩
    · simp at hlen
  | succ fuel ih =>
    intro s hlen hne
    rcases s with _ | ⟨top, _ | ⟨parent, rest⟩⟩
    · exact absurd rfl hne
    · exact ⟨top, rfl, rfl⟩
    · have hlen2 : (parent.addChild top :: rest).length ≤ fuel + 1 := by
        simp at hlen ⊢
        omega
      obtain ⟨r, hr, hl⟩ := ih (parent.addChild top :: rest) hlen2 (by simp)
      exact ⟨r, by simpa [popAllFuel] using hr, hl.trans (lastLevel_pop top parent rest)⟩

theorem popAll_singleton (s : List Node) (h : s ≠ []) :
    ∃ r, popAll s = [r] ∧ some r.level = lastLevel s :=
  popAllFuel_singleton s.length s (by omega) h

theorem stepLine_inv (b hd line : Str) (s : List Node) (hne : s ≠ []) :
    stepLine b hd s line ≠ [] ∧ lastLevel (stepLine b hd s line) = lastLevel s := by
  by_cases hh : stripStr line = stripStr hd
  · simp only [stepLine, if_pos hh]
    exact ⟨hne, by trivial⟩
  · rcases hdl : detect_label line with _ | ⟨level, label, pos⟩
    · rcases s with _ | ⟨top, rest⟩
      · exact absurd rfl hne
      · simp only [stepLine, if_neg hh, hdl]
        by_cases ha : (stripStr line).isEmpty
        · simp [ha]
        · simp only [ha, Bool.false_eq_true, if_false]
          refine ⟨by simp, ?_⟩
          exact lastLevel_congr _ _ (withText_level _ top) rest
    · simp only [stepLine, if_neg hh, hdl]
      have hps := popStack_inv (levelIndex level) s
      refine ⟨by simp, ?_⟩
      rw [lastLevel_cons _ _ (hps.2 hne)]
      exact hps.1

theorem foldl_stepLine_inv (b hd : Str) :
    ∀ (lines : List Str) (s : List Node), s ≠ [] →
      lines.foldl (stepLine b hd) s ≠ [] ∧
      lastLevel (lines.foldl (stepLine b hd) s) = lastLevel s := by
  intro lines
  induction lines with
  | nil => intro s h; exact ⟨h, rfl⟩
  | cons l ls ih =>
    intro s h
    have h1 := stepLine_inv b hd l s h
    have h2 := ih (stepLine b hd s l) h1.1
    simp only [List.foldl_cons]
    exact ⟨h2.1, h2.2.trans h1.2⟩


theorem popAll_foldl_section (baseId headerLine : Str) (lines : List Str) (sn : Node)
    (hsn : sn.level = "section".data) :
    ∃ r, popAll (lines.foldl (stepLine baseId headerLine) [sn]) = [r] ∧
      r.level = "section".data := by
  have hfold := foldl_stepLine_inv baseId headerLine lines [sn] (by simp)
  obtain ⟨r, hr, hl⟩ := popAll_singleton _ hfold.1
  refine ⟨r, hr, ?_⟩
  rw [hfold.2] at hl
  have hsingle : lastLevel [sn] = some sn.level := rfl
  rw [hsingle, hsn] at hl
  exact Option.some.inj hl

theorem buildTextDoc_shape (text prefixStr docType work headerLine title sec rest : Str) :
    (buildTextDoc text prefixStr docType work headerLine title sec rest).needs_llm_assist
        = false ∧
    (buildTextDoc text prefixStr docType work headerLine title sec rest).document.spans
        = some () ∧
    (buildTextDoc text prefixStr docType work headerLine title sec rest).document.meta
        = some () ∧
    ∃ r, (buildTextDoc text prefixStr docType work headerLine title sec rest).document.nodes
        = [r] ∧ r.level = "section".data := by
  refine ⟨rfl, rfl, rfl, ?_⟩
  simp only [buildTextDoc]
  exact popAll_foldl_section _ headerLine _ _ rfl

mutual
theorem eraseText_rewriteN (b : Str) (p : List (Str × List Node)) (w t : Str) :
    (n : Node) → eraseTextN (rewriteN b p w t n) = eraseTextN n
  | .mk i la lv h tx cs => by
    simp only [rewriteN, eraseTextN, Node.mk.injEq, true_and]
    exact eraseText_rewriteL b p w t cs
theorem eraseText_rewriteL (b : Str) (p : List (Str × List Node)) (w t : Str) :
    (l : List Node) → eraseTextL (rewriteL b p w t l) = eraseTextL l
  | [] => rfl
  | n :: ns => by
    simp only [rewriteL, eraseTextL, List.cons.injEq]
    exact ⟨eraseText_rewriteN b p w t n, eraseText_rewriteL b p w t ns⟩
end


/-! ### Claims -/

set_option maxHeartbeats 2000000 in
/-- C1: for the spec's end-to-end two-level USC scenario (header, subsection (a),
paragraphs carrying `For purposes of subsection (a)` and `subject to section 274`
in distinct nodes, as the one-relation-per-node rule requires), parsing then
resolving yields a link with relation `for-purposes-of` and target
`usc:26:162(a)`, a separate link with relation `subject-to` and target
`usc:26:274`, and a paragraph node whose rewritten text contains
`[[usc:26:274]]`. -/
theorem c1_end_to_end_scenario :
    (resolve (parse c1Input "USC".data []).document).links =
      some
        [{ source := "usc:26:162(a)(1)".data, target := "usc:26:162(a)".data,
           relation := "for-purposes-of".data, scope := "intra-section".data,
           ref_text := "subsection (a)".data, confidence := 95 },
         { source := "usc:26:162(a)(2)".data, target := "usc:26:274".data,
           relation := "subject-to".data, scope := "inter-section".data,
           ref_text := "section 274".data, confidence := 95 }] ∧
    (flattenL (resolve (parse c1Input "USC".data []).document).nodes).any
      (fun n => n.level == "paragraph".data &&
        containsSub "[[usc:26:274]]".data n.text) = true := by
  decide

/-- C2 counterexample: for a paragraph directly under the section root whose text
says `this subsection`, the nearest-ancestor lookup does not fall back to the
document root: it returns the paragraph itself (the last element of the path),
and the resulting link targets the paragraph's own id, not the root's. -/
theorem c2_counterexample :
    (nearest_ancestor_of_level [c2Root, c2Para] "subsection".data).map Node.id =
      some "usc:1:1(1)".data ∧
    (resolve c2Doc).links =
      some [{ source := "usc:1:1(1)".data, target := "usc:1:1(1)".data,
              relation := "see-also".data, scope := "intra-section".data,
              ref_text := "this subsection".data, confidence := 90 }] ∧
    ("usc:1:1(1)".data : Str) ≠ "usc:1:1".data := by
  decide

theorem getLast?_ne_none_of_ne_nil (l : List Node) (h : l ≠ []) : l.getLast? ≠ none := by
  induction l with
  | nil => exact absurd rfl h
  | cons a t ih =>
    cases t with
    | nil => simp [List.getLast?]
    | cons b t2 =>
      rw [List.getLast?_cons_cons]
      exact ih (by simp)

/-- C2 amended: when no node of the referenced level exists on the node's path
(walking from the node outward to the root), `nearest_ancestor_of_level` falls
back to the last element of the path — the node itself — which equals the
document root only when the node is the root. -/
theorem c2_fallback_is_path_last (path : List Node) (level : Str) (h1 : path ≠ [])
    (h2 : ∀ n ∈ path, n.level ≠ level) :
    nearest_ancestor_of_level path level = path.getLast? ∧ path.getLast? ≠ none := by
  constructor
  · unfold nearest_ancestor_of_level
    have hf : path.reverse.find? (fun n => n.level == level) = none := by
      rw [List.find?_eq_none]
      intro x hx
      simpa using h2 x (List.mem_reverse.mp hx)
    rw [hf]
  · exact getLast?_ne_none_of_ne_nil path h1

theorem c2_witness :
    nearest_ancestor_of_level [c2Root, c2Para] "item".data =
      ([c2Root, c2Para] : List Node).getLast? ∧
    ([c2Root, c2Para] : List Node).getLast? ≠ none :=
  c2_fallback_is_path_last [c2Root, c2Para] "item".data (List.cons_ne_nil _ _)
    (by decide)

/-- C3 counterexample: the degraded manual-assist document returned by the
text-mode `parse` does not contain the `spans` and `meta` fields (it carries only
id, type, source and the empty node list), so not every document returned by
`parse` has them. -/
theorem c3_counterexample :
    (parse "no header here".data "USC".data []).needs_llm_assist = true ∧
    (parse "no header here".data "USC".data []).document.spans = none ∧
    (parse "no header here".data "USC".data []).document.meta = none := by
  decide

/-- C3 amended: every successful (non-manual-assist) document returned by the
text-mode `parse` contains `spans` and `meta`, present and unpopulated (the empty
list and the empty map); the degraded manual-assist document omits them. -/
theorem c3_success_has_spans_meta (s st hint : Str)
    (h : (parse s st hint).needs_llm_assist = false) :
    (parse s st hint).document.spans = some () ∧
    (parse s st hint).document.meta = some () := by
  by_cases hU : upperStr st = "CFR".data
  · rcases hS : searchCFR (normalize s) with _ | ⟨line, title, sec, rest⟩
    · have hp : parse s st hint = degradedDoc st hint := by simp [parse, hU, hS]
      rw [hp] at h
      simp [degradedDoc] at h
    · have hp : parse s st hint =
          buildTextDoc (normalize s) "cfr".data "regulation".data "CFR".data
            line title sec rest := by
        simp [parse, hU, hS]
      rw [hp]
      exact ⟨rfl, rfl⟩
  · rcases hS : searchUSC (normalize s) with _ | ⟨line, title, sec, rest⟩
    · have hp : parse s st hint = degradedDoc st hint := by simp [parse, hU, hS]
      rw [hp] at h
      simp [degradedDoc] at h
    · have hp : parse s st hint =
          buildTextDoc (normalize s) "usc".data "statute".data "USC".data
            line title sec rest := by
        simp [parse, hU, hS]
      rw [hp]
      exact ⟨rfl, rfl⟩

theorem c3_witness :
    (parse c1Input "USC".data []).document.spans = some () ∧
    (parse c1Input "USC".data []).document.meta = some () :=
  c3_success_has_spans_meta c1Input "USC".data [] (by decide)


/-- C4: for every text-mode input, when the header grammar selected by the source
type matches a line, `parse` reports no manual assist and its node list is a
single root of level `section`; when no header line matches, `parse` reports
manual assist with an empty node list (and, being a total function, never
raises). -/
theorem c4_header_gates_manual_assist (s st hint : Str) :
    (headerMatched s st = true →
      (parse s st hint).needs_llm_assist = false ∧
      ∃ r, (parse s st hint).document.nodes = [r] ∧ r.level = "section".data) ∧
    (headerMatched s st = false →
      (parse s st hint).needs_llm_assist = true ∧
      (parse s st hint).document.nodes = []) := by
  by_cases hU : upperStr st = "CFR".data
  · rcases hS : searchCFR (normalize s) with _ | ⟨line, title, sec, rest⟩
    · have hm : headerMatched s st = false := by simp [headerMatched, hU, hS]
      have hp : parse s st hint = degradedDoc st hint := by simp [parse, hU, hS]
      refine ⟨fun hc => ?_, fun _ => ?_⟩
      · rw [hm] at hc
        simp at hc
      · rw [hp]
        exact ⟨rfl, rfl⟩
    · have hm : headerMatched s st = true := by simp [headerMatched, hU, hS]
      have hp : parse s st hint =
          buildTextDoc (normalize s) "cfr".data "regulation".data "CFR".data
            line title sec rest := by
        simp [parse, hU, hS]
      refine ⟨fun _ => ?_, fun hc => ?_⟩
      · rw [hp]
        have hb := buildTextDoc_shape (normalize s) "cfr".data "regulation".data
          "CFR".data line title sec rest
        exact ⟨hb.1, hb.2.2.2⟩
      · rw [hm] at hc
        simp at hc
  · rcases hS : searchUSC (normalize s) with _ | ⟨line, title, sec, rest⟩
    · have hm : headerMatched s st = false := by simp [headerMatched, hU, hS]
      have hp : parse s st hint = degradedDoc st hint := by simp [parse, hU, hS]
      refine ⟨fun hc => ?_, fun _ => ?_⟩
      · rw [hm] at hc
        simp at hc
      · rw [hp]
        exact ⟨rfl, rfl⟩
    · have hm : headerMatched s st = true := by simp [headerMatched, hU, hS]
      have hp : parse s st hint =
          buildTextDoc (normalize s) "usc".data "statute".data "USC".data
            line title sec rest := by
        simp [parse, hU, hS]
      refine ⟨fun _ => ?_, fun hc => ?_⟩
      · rw [hp]
        have hb := buildTextDoc_shape (normalize s) "usc".data "statute".data
          "USC".data line title sec rest
        exact ⟨hb.1, hb.2.2.2⟩
      · rw [hm] at hc
        simp at hc

theorem c4_witness :
    headerMatched c1Input "USC".data = true ∧
    (parse c1Input "USC".data []).needs_llm_assist = false ∧
    ∃ r, (parse c1Input "USC".data []).document.nodes = [r] ∧
      r.level = "section".data :=
  ⟨by decide, (c4_header_gates_manual_assist c1Input "USC".data []).1 (by decide)⟩

/-- C5 counterexample: a two-character lowercase roman label such as `(iv)` is
classified by `detect_label` as `item`, not `clause`, because the two-letter item
alphabet is tested first. -/
theorem c5_counterexample :
    detect_label "(iv) text".data = some ("item".data, "iv".data, 5) ∧
    ("item".data : Str) ≠ "clause".data := by
  decide

/-- C5 amended: a line starting with a parenthesized label of lowercase
roman-numeral characters followed by whitespace is classified as `clause`
whenever the label does not consist of exactly two characters (two-character
roman labels are taken by the item alphabet, which is tested first). -/
theorem c5_roman_label_classification (ls : Str) (w : Char) (rest : Str)
    (h1 : ls ≠ []) (h2 : ∀ c ∈ ls, isRomanLower c = true) (h3 : ls.length ≠ 2)
    (h4 : isPySpace w = true) :
    detect_label ('(' :: ls ++ ')' :: w :: rest) =
      some ("clause".data, ls, ls.length + 3) := by
  have h1e : ls.isEmpty = false := by
    cases ls with
    | nil => exact absurd rfl h1
    | cons a t => rfl
  have ht : (ls ++ ')' :: w :: rest).takeWhile isRomanLower = ls := by
    rw [takeWhile_all_append _ _ _ h2]
    simp [List.takeWhile_cons, isRoman_rparen_false]
  have hdp : (ls ++ ')' :: w :: rest).dropWhile isRomanLower = ')' :: w :: rest := by
    rw [dropWhile_all_append _ _ _ h2]
    simp [List.dropWhile_cons, isRoman_rparen_false]
  have hm3 : matchPlus isRomanLower ('(' :: ls ++ ')' :: w :: rest) = some ls := by
    simp [matchPlus, ht, hdp, h1e, h4]
  rcases ls with _ | ⟨a, _ | ⟨b, _ | ⟨c, tl⟩⟩⟩
  · exact absurd rfl h1
  · simp only [List.cons_append, List.nil_append] at hm3 ⊢
    rcases rest with _ | ⟨r0, rtl⟩
    · have hm1 : matchTwo isLowerAlpha ['(', a, ')', w] = none := rfl
      have hm2 : matchTwo isUpperAlpha ['(', a, ')', w] = none := rfl
      simp [detect_label, hm1, hm2, hm3]
    · have hm1 : matchTwo isLowerAlpha ('(' :: a :: ')' :: w :: r0 :: rtl) = none := by
        simp [matchTwo, isLowerAlpha_rparen]
      have hm2 : matchTwo isUpperAlpha ('(' :: a :: ')' :: w :: r0 :: rtl) = none := by
        simp [matchTwo, isUpperAlpha_rparen]
      simp [detect_label, hm1, hm2, hm3]
  · simp at h3
  · have hrc := h2 c (by simp)
    have hcnp : (c == ')') = false := isRoman_ne_rparen c hrc
    have hnu : isUpperAlpha a = false := isRoman_not_upper a (h2 a (by simp))
    simp only [List.cons_append, List.nil_append] at hm3 ⊢
    rcases tl with _ | ⟨d, tl2⟩
    · simp only [List.cons_append, List.nil_append] at hm3 ⊢
      have hm1 : matchTwo isLowerAlpha ('(' :: a :: b :: c :: ')' :: w :: rest) = none := by
        simp [matchTwo, hcnp]
      have hm2 : matchTwo isUpperAlpha ('(' :: a :: b :: c :: ')' :: w :: rest) = none := by
        simp [matchTwo, hnu]
      simp [detect_label, hm1, hm2, hm3]
    · simp only [List.cons_append, List.nil_append] at hm3 ⊢
      have hm1 : matchTwo isLowerAlpha
          ('(' :: a :: b :: c :: d :: (tl2 ++ ')' :: w :: rest)) = none := by
        simp [matchTwo, hcnp]
      have hm2 : matchTwo isUpperAlpha
          ('(' :: a :: b :: c :: d :: (tl2 ++ ')' :: w :: rest)) = none := by
        simp [matchTwo, hnu]
      simp [detect_label, hm1, hm2, hm3]

theorem c5_witness :
    detect_label ('(' :: "iii".data ++ ')' :: ' ' :: "x".data) =
      some ("clause".data, "iii".data, "iii".data.length + 3) :=
  c5_roman_label_classification "iii".data ' ' "x".data (by decide) (by decide)
    (by decide) (by decide)

/-- C6: a line starting with a two-lowercase-letter parenthesized label followed by
whitespace is classified as `item`, and a two-uppercase-letter one as `subitem`;
the two-letter alphabets are tested before every other alphabet, so neither is
ever classified as a clause, subclause, subsection or subparagraph. -/
theorem c6_two_letter_labels (a b w : Char) (rest : Str) :
    (isLowerAlpha a = true → isLowerAlpha b = true → isPySpace w = true →
      detect_label ('(' :: a :: b :: ')' :: w :: rest) =
        some ("item".data, [a, b], 5)) ∧
    (isUpperAlpha a = true → isUpperAlpha b = true → isPySpace w = true →
      detect_label ('(' :: a :: b :: ')' :: w :: rest) =
        some ("subitem".data, [a, b], 5)) := by
  constructor
  · intro ha hb hw
    have hm : matchTwo isLowerAlpha ('(' :: a :: b :: ')' :: w :: rest) = some [a, b] := by
      simp [matchTwo, ha, hb, hw]
    simp [detect_label, hm]
  · intro ha hb hw
    have hm1 : matchTwo isLowerAlpha ('(' :: a :: b :: ')' :: w :: rest) = none := by
      simp [matchTwo, isUpper_not_lower a ha]
    have hm2 : matchTwo isUpperAlpha ('(' :: a :: b :: ')' :: w :: rest) = some [a, b] := by
      simp [matchTwo, ha, hb, hw]
    simp [detect_label, hm1, hm2]

theorem c6_witness :
    detect_label ('(' :: 'a' :: 'a' :: ')' :: ' ' :: "x".data) =
      some ("item".data, ['a', 'a'], 5) ∧
    detect_label ('(' :: 'A' :: 'A' :: ')' :: ' ' :: "x".data) =
      some ("subitem".data, ['A', 'A'], 5) :=
  ⟨(c6_two_letter_labels 'a' 'a' ' ' "x".data).1 (by decide) (by decide) (by decide),
   (c6_two_letter_labels 'A' 'A' ' ' "x".data).2 (by decide) (by decide) (by decide)⟩

/-- C7: in `build_target_id`, when the first suffix label fails the expected
character-class predicate of the referenced level, the ancestor-derived base
label sequence is discarded entirely (the target is the base id plus only the
suffix labels); otherwise, when the base sequence's last label equals the first
suffix label, exactly that one duplicate base label is dropped before
concatenation. -/
theorem c7_build_target_id_cases (baseId : Str) (basePath : List Node)
    (noun first : Str) (restLabels : List Str) (p : Str → Bool)
    (hp : expectedLabelPredicate noun = some p) :
    (p first = false →
      build_target_id baseId basePath (first :: restLabels) noun =
        baseId ++ (((first :: restLabels).map (fun l => '(' :: l ++ [')'])).flatten)) ∧
    (p first = true → ∀ lastL, (baseLabelsOf basePath).getLast? = some lastL →
      first = lastL →
      build_target_id baseId basePath (first :: restLabels) noun =
        baseId ++ ((((baseLabelsOf basePath).dropLast ++ first :: restLabels).map
          (fun l => '(' :: l ++ [')'])).flatten)) := by
  constructor
  · intro hpf
    simp [build_target_id, hp, hpf]
  · intro hpt lastL hlast heq
    subst heq
    simp [build_target_id, hp, hpt, hlast]

theorem c7_witness :
    build_target_id "usc:26:162".data [c7BaseNode] ["z".data] "paragraph".data =
      "usc:26:162".data ++ ((["z".data].map (fun l => '(' :: l ++ [')'])).flatten) ∧
    build_target_id "usc:26:162".data [c7BaseNode] ["1".data] "paragraph".data =
      "usc:26:162".data ++ ((((baseLabelsOf [c7BaseNode]).dropLast ++
        ["1".data]).map (fun l => '(' :: l ++ [')'])).flatten) :=
  ⟨(c7_build_target_id_cases "usc:26:162".data [c7BaseNode] "paragraph".data
      "z".data [] pyIsDigit rfl).1 (by decide),
   (c7_build_target_id_cases "usc:26:162".data [c7BaseNode] "paragraph".data
      "1".data [] pyIsDigit rfl).2 (by decide) "1".data (by decide) rfl⟩


set_option maxHeartbeats 2000000 in
/-- C8 counterexample: re-running `resolve` can duplicate a link for a phrase
already followed by a bracketed pointer. With a document id containing
reference-like text (`section 9`), the pointer inserted for the relative
reference is itself matched by the absolute-reference pattern on the second run,
so the second links list holds the identical absolute link twice while the first
holds it once. -/
theorem c8_counterexample :
    (resolve c8AdvDoc).links = some [c8RelLink, c8AbsLink] ∧
    (resolve (resolve c8AdvDoc)).links = some [c8RelLink, c8AbsLink, c8AbsLink] := by
  decide

set_option maxHeartbeats 2000000 in
/-- C8 amended: `resolve` recomputes and replaces the links list wholesale (it
never appends to the incoming one, so the first run's links are never retained
next to their duplicates); on documents whose inserted pointers contain no
reference-like text — such as the parse-produced end-to-end document — a second
run yields exactly the first run's links. The code has no guard beyond this
replacement semantics. -/
theorem c8_links_replaced_and_idempotent_example :
    (∀ doc : Document, doc.nodes ≠ [] →
      (resolve doc).links = (resolve { doc with links := none }).links) ∧
    (resolve (resolve (parse c1Input "USC".data []).document)).links =
      some
        [{ source := "usc:26:162(a)(1)".data, target := "usc:26:162(a)".data,
           relation := "for-purposes-of".data, scope := "intra-section".data,
           ref_text := "subsection (a)".data, confidence := 95 },
         { source := "usc:26:162(a)(2)".data, target := "usc:26:274".data,
           relation := "subject-to".data, scope := "inter-section".data,
           ref_text := "section 274".data, confidence := 95 }] ∧
    (resolve (parse c1Input "USC".data []).document).links =
      some
        [{ source := "usc:26:162(a)(1)".data, target := "usc:26:162(a)".data,
           relation := "for-purposes-of".data, scope := "intra-section".data,
           ref_text := "subsection (a)".data, confidence := 95 },
         { source := "usc:26:162(a)(2)".data, target := "usc:26:274".data,
           relation := "subject-to".data, scope := "inter-section".data,
           ref_text := "section 274".data, confidence := 95 }] := by
  refine ⟨?_, by decide, by decide⟩
  intro doc h
  rcases hd : doc.nodes with _ | ⟨root, rest⟩
  · exact absurd hd h
  · simp [resolve, hd]

theorem c8_witness :
    (resolve c8AdvDoc).links = (resolve { c8AdvDoc with links := none }).links :=
  c8_links_replaced_and_idempotent_example.1 c8AdvDoc (List.cons_ne_nil _ _)

/-- C9: `resolve` mutates at most the document's links and the text of nodes: the
document's id, type, source, heading, spans and meta are unchanged, and the node
list is unchanged up to node texts (`eraseTextN` keeps id, label, level, heading
and the child structure), so in particular no node is deleted. -/
theorem c9_resolve_frame (doc : Document) :
    (resolve doc).id = doc.id ∧ (resolve doc).type = doc.type ∧
    (resolve doc).source = doc.source ∧ (resolve doc).heading = doc.heading ∧
    (resolve doc).spans = doc.spans ∧ (resolve doc).meta = doc.meta ∧
    ((resolve doc).nodes).map eraseTextN = doc.nodes.map eraseTextN ∧
    ((resolve doc).nodes).length = doc.nodes.length := by
  rcases hd : doc.nodes with _ | ⟨root, rest⟩ <;>
    simp [resolve, hd, eraseText_rewriteN]

/-- C10: on a document whose node list is empty (the manual-assist shape; an absent
`nodes` key behaves identically through `dict.get`), `resolve` returns the
document unchanged except that the `links` key is made present, defaulted to the
empty list when it was absent; being a total function it never raises. -/
theorem c10_empty_nodes_resolve (doc : Document) (h : doc.nodes = []) :
    resolve doc = { doc with links := some (doc.links.getD []) } := by
  rcases doc with ⟨i, ty, so, he, no, li, sp, me⟩
  have h2 : no = [] := h
  subst h2
  rfl

theorem c10_witness :
    resolve c10EmptyDoc = { c10EmptyDoc with links := some (c10EmptyDoc.links.getD []) } :=
  c10_empty_nodes_resolve c10EmptyDoc rfl

end StatuteToJson
